import Mathlib

/-!
Verification development for the Tudat orbit-determination core
(file Tudat/Astrodynamics/OrbitDetermination/orbitDeterminationManager.h).

The C++ code is shallowly embedded over exact rational numbers:

* Eigen vectors become `List ℚ`, matrices become lists of rows
  (or, for the column-wise normalization routine, lists of columns).
* `std::map` iteration (sorted, deterministic) is represented by the order
  of an association list `List (key × value)`.  Two C++ maps with equal key
  sets iterate their keys in the same (sorted) order, so "mirrors the key
  structure" is modelled as structural equality of the key skeletons of the
  two association lists.
* Observation managers and the numerical collaborators that live outside
  this header (`performLeastSquaresAdjustmentFromInformationMatrix`,
  `getVectorEntryRootMeanSquare`, the propagator) are abstracted as
  function parameters; the control flow of this header is embedded exactly.
* Fallible code (a missing observation manager) is an `Except` value; the
  dereference of a default-constructed null manager pointer produced by
  `observationManagers_[ type ]` is modelled as a distinguished error kind,
  different from the `std::runtime_error` thrown by `getObservationManager`.
-/

namespace OrbitDetermination

/-! ### Basic vector helpers (Eigen operations used by the header) -/

/-- Elementwise sum of two vectors (Eigen `operator+`; sizes are equal in
all uses made by the embedded code, which Eigen asserts). -/
def vecAdd (a b : List ℚ) : List ℚ := List.zipWith (· + ·) a b

/-- Elementwise difference of two vectors (Eigen `operator-`). -/
def vecSub (a b : List ℚ) : List ℚ := List.zipWith (· - ·) a b

/-- Elementwise quotient (Eigen `cwiseQuotient`). -/
def cwiseQuotient (a b : List ℚ) : List ℚ := List.zipWith (· / ·) a b

/-- Concatenation of the lists produced by `f` over `l`, in order. -/
def concatMap (f : α → List β) : List α → List β
  | [] => []
  | x :: xs => f x ++ concatMap f xs

/-! ### Data model of the measurement input

`PodInputType` of the header: observable type (an enum, embedded as `ℕ`)
maps to link ends (embedded as `ℕ`) maps to (observation vector,
(time tags, reference link end type)).  The list order is the map
iteration order. -/

/-- The data held per (observable type, link ends) pair in `PodInputType`:
a vector of observed values, the associated time tags, and the reference
link end designation. -/
structure SingleObservableData where
  observations : List ℚ
  times : List ℚ
  referenceLinkEndType : ℕ

/-- `PodInputType`: per observable type, per link ends, the measurement
data, with list order standing for `std::map` iteration order. -/
abbrev PodInputType := List (ℕ × List (ℕ × SingleObservableData))

/-- The weights input `std::map< ObservableType, std::map< LinkEnds,
Eigen::VectorXd > >`, list order standing for map iteration order. -/
abbrev WeightsDataStructure := List (ℕ × List (ℕ × List ℚ))

/-! ### getConcatenatedWeightsVector (header lines 41-75)

The C++ first sums all inner vector sizes, allocates a zero vector of that
size, then copies each group at the running index, visiting observable
types in outer-map order and link ends in inner-map order.  Writing the
segments consecutively into the preallocated vector is exactly
concatenation in iteration order. -/

/-- Embedding of `getConcatenatedWeightsVector`. -/
def getConcatenatedWeightsVector (weightsData : WeightsDataStructure) : List ℚ :=
  weightsData.foldl (fun acc entry => entry.2.foldl (fun acc2 inner => acc2 ++ inner.2) acc) []

/-- Embedding of the total-count part of
`getNumberOfObservationsPerObservable` (header lines 302-329): per
observable type the sum of the inner observation vector sizes, and the
grand total. -/
def getNumberOfObservationsPerObservable (observationsAndTimes : PodInputType) :
    List (ℕ × ℕ) × ℕ :=
  let perType := observationsAndTimes.map
    (fun entry => (entry.1, (entry.2.map (fun inner => inner.2.observations.length)).sum))
  (perType, (perType.map (·.2)).sum)

/-! ### Observation managers and the residual/Jacobian assembler -/

/-- An observation manager abstracted at its interface
`computeObservationsWithPartials( times, linkEnds, referenceLinkEndType )`,
returning computed observation values and the partials block (rows). -/
abbrev ObservationManager := List ℚ → ℕ → ℕ → List ℚ × List (List ℚ)

/-- The `observationManagers_` member: observable type to manager. -/
abbrev ObservationManagerMap := List (ℕ × ObservationManager)

/-- Lookup of a manager by observable type (the `count`/`at` view of the
`std::map`). -/
def lookupObservationManager (managers : ObservationManagerMap) (observableType : ℕ) :
    Option ObservationManager :=
  (managers.find? (fun entry => entry.1 == observableType)).map (·.2)

/-- Failure modes of the embedded estimation code.
`nullManagerDereference` stands for the undefined behaviour of calling
`computeObservationsWithPartials` through the default-constructed (null)
`boost::shared_ptr` that `observationManagers_[ type ]` inserts for an
unregistered type; `managerNotFound` stands for the `std::runtime_error`
thrown by `getObservationManager`. -/
inductive EstimationError where
  | nullManagerDereference : ℕ → EstimationError
  | managerNotFound : ℕ → EstimationError
deriving DecidableEq

/-- Residual and partials assembly for the groups of one observable type:
per link ends, residual segment `observed - computed` and the partials
block, concatenated at the running start index (header lines 359-383). -/
def assembleSingleObservable (manager : ObservationManager) :
    List (ℕ × SingleObservableData) → List ℚ × List (List ℚ)
  | [] => ([], [])
  | (linkEnds, data) :: rest =>
    let observationsWithPartials := manager data.times linkEnds data.referenceLinkEndType
    let residualSegment := vecSub data.observations observationsWithPartials.1
    let restResult := assembleSingleObservable manager rest
    (residualSegment ++ restResult.1, observationsWithPartials.2 ++ restResult.2)

/-- Embedding of `calculateObservationMatrixAndResiduals` (header lines
342-385): visit observable types in outer-map order, link ends in
inner-map order, writing residual segments and partials blocks at a
monotonically accumulating row offset.  The `observationManagers_[ type ]`
access on an unregistered type dereferences a null pointer, embedded as
the `nullManagerDereference` error. -/
def calculateObservationMatrixAndResiduals (managers : ObservationManagerMap) :
    PodInputType → Except EstimationError (List ℚ × List (List ℚ))
  | [] => .ok ([], [])
  | (observableType, groups) :: rest =>
    match lookupObservationManager managers observableType with
    | none => .error (.nullManagerDereference observableType)
    | some manager =>
      let current := assembleSingleObservable manager groups
      match calculateObservationMatrixAndResiduals managers rest with
      | .error e => .error e
      | .ok restResult => .ok (current.1 ++ restResult.1, current.2 ++ restResult.2)

/-- Embedding of `getObservationManager` (header lines 700-712): a missing
observable type raises a `std::runtime_error` naming the type. -/
def getObservationManager (managers : ObservationManagerMap) (observableType : ℕ) :
    Except EstimationError ObservationManager :=
  match lookupObservationManager managers observableType with
  | none => .error (.managerNotFound observableType)
  | some manager => .ok manager

/-! ### The (observable type, link ends, observation index) enumeration -/

/-- The ordered list of (observable type, link ends, observation index)
triples that the residual/Jacobian assembler stacks, row by row. -/
def stackedObservationTriples (observationsAndTimes : PodInputType) : List (ℕ × ℕ × ℕ) :=
  concatMap (fun entry =>
    concatMap (fun inner =>
      (List.range inner.2.observations.length).map (fun k => (entry.1, inner.1, k))) entry.2)
    observationsAndTimes

/-- The ordered list of (observable type, link ends, weight index) triples
that the weight concatenation walks through. -/
def concatenatedWeightTriples (weightsData : WeightsDataStructure) : List (ℕ × ℕ × ℕ) :=
  concatMap (fun entry =>
    concatMap (fun inner =>
      (List.range inner.2.length).map (fun k => (entry.1, inner.1, k))) entry.2)
    weightsData

/-- Mirror check for the inner maps: same link ends keys in the same order
and, per group, as many weights as observations. -/
def innerWeightsMirror : List (ℕ × SingleObservableData) → List (ℕ × List ℚ) → Bool
  | [], [] => true
  | (linkEnds, data) :: gr, (linkEnds', wv) :: wr =>
    linkEnds == linkEnds' && data.observations.length == wv.length && innerWeightsMirror gr wr
  | _, _ => false

/-- Mirror check: the weights structure has the same observable type keys
in the same order as the observation structure, the same link ends keys in
the same order within each type, and one weight per observation.  Equal
key sets of two `std::map`s yield equal (sorted) iteration orders, so this
is the faithful rendering of a weights map that mirrors the observation
map. -/
def weightsMirror : PodInputType → WeightsDataStructure → Bool
  | [], [] => true
  | (observableType, groups) :: orest, (observableType', wgroups) :: wrest =>
    observableType == observableType' && innerWeightsMirror groups wgroups &&
      weightsMirror orest wrest
  | _, _ => false

/-! ### EstimationConvergenceChecker (header lines 78-152)

Member types follow the C++ declarations: `maximumNumberOfIterations_` is
a (signed) `int`, `numberOfIterationsWithoutImprovement_` is an
`unsigned int`.  RMS values are doubles; the checker only compares and
subtracts them, which is embedded over `ℚ`. -/

/-- The convergence checker configuration (header lines 139-151). -/
structure EstimationConvergenceChecker where
  maximumNumberOfIterations : ℤ
  minimumResidualChange : ℚ
  minimumResidual : ℚ
  numberOfIterationsWithoutImprovement : ℕ

/-- Index of the first maximum element, scanning left to right and moving
only on a strictly greater element (`std::max_element` keeps the first of
equal maxima).  Auxiliary recursion carrying best value, best index and
current index. -/
def maxElementIndexAux : List ℚ → ℚ → ℕ → ℕ → ℕ
  | [], _, bestIdx, _ => bestIdx
  | x :: xs, bestVal, bestIdx, cur =>
    if bestVal < x then maxElementIndexAux xs x cur (cur + 1)
    else maxElementIndexAux xs bestVal bestIdx (cur + 1)

/-- `std::distance( begin, std::max_element( begin, end ) )`: for an empty
range `max_element` returns `end`, so the distance is the length. -/
def maxElementIndex : List ℚ → ℕ
  | [] => 0
  | x :: xs => maxElementIndexAux xs x 0 1

/-- The C++ expression `std::distance( ... ) - rmsResidualHistory.size( )`
subtracts a `size_t` from a `ptrdiff_t`; the usual arithmetic conversions
perform the subtraction in unsigned 64-bit arithmetic, so a mathematically
negative difference wraps around to a value close to `2 ^ 64`. -/
def uint64SubWrap (a b : ℕ) : ℕ := (a + 2 ^ 64 - b) % 2 ^ 64

/-- Embedding of `isEstimationConverged` (header lines 109-138): the four
`if` statements each set `isConverged`, so the result is their
disjunction.  `rmsResidualHistory[ size - 1 ]` is embedded with `getD`
(the C++ is undefined on an empty history; every use in the header passes
a non-empty one). -/
def isEstimationConverged (checker : EstimationConvergenceChecker)
    (numberOfIterations : ℤ) (rmsResidualHistory : List ℚ) : Bool :=
  let n := rmsResidualHistory.length
  let lastRms := rmsResidualHistory.getD (n - 1) 0
  let maximumReached := decide (checker.maximumNumberOfIterations ≤ numberOfIterations)
  let residualLevelReached := decide (lastRms < checker.minimumResidual)
  let withoutImprovement := decide
    (uint64SubWrap (maxElementIndex rmsResidualHistory) n <
      checker.numberOfIterationsWithoutImprovement)
  let residualChangeSmall := decide (1 < n) &&
    decide (|lastRms - rmsResidualHistory.getD (n - 2) 0| < checker.minimumResidualChange)
  maximumReached || residualLevelReached || withoutImprovement || residualChangeSmall

/-! ### normalizeObservationMatrix (header lines 394-443)

The routine works column by column, so the matrix is represented here as
the list of its columns.  Each column is handled independently: the
in-place column updates of the C++ loop do not interact. -/

/-- `minCoeff` of a non-empty column (the empty case, on which Eigen
asserts, is given the harmless value 0). -/
def colMinimum : List ℚ → ℚ
  | [] => 0
  | x :: xs => xs.foldl min x

/-- `maxCoeff` of a non-empty column. -/
def colMaximum : List ℚ → ℚ
  | [] => 0
  | x :: xs => xs.foldl max x

/-- The scale factor chosen for one column (header lines 401-410):
`minimum` when `fabs( minimum ) > maximum`, else `maximum`. -/
def normalizationTerm (col : List ℚ) : ℚ :=
  if |colMinimum col| > colMaximum col then colMinimum col else colMaximum col

/-- Embedding of `normalizeObservationMatrix`: returns the vector of
normalization terms and the matrix with each column divided by its term
(the C++ mutates the matrix in place and returns the terms). -/
def normalizeObservationMatrix (observationMatrix : List (List ℚ)) :
    List ℚ × List (List ℚ) :=
  (observationMatrix.map normalizationTerm,
   observationMatrix.map (fun col => col.map (fun x => x / normalizationTerm col)))

/-! ### resetParameterEstimate (header lines 618-629)

The manager state relevant to the reset function: the flag deciding the
branch, the effect on the variational equations solver (re-propagation at
the given vector, with the given variational flag), the parameter values
container, and the cached current estimate. -/

/-- The slice of `OrbitDeterminationManager` state touched by
`resetParameterEstimate`. -/
structure ResetState where
  integrateAndEstimateOrbit : Bool
  solverParameterEstimate : List ℚ
  solverReintegratedVariationalEquations : Bool
  parameterSetValues : List ℚ
  currentParameterEstimate : List ℚ

/-- Embedding of `resetParameterEstimate`: if dynamics are estimated, the
variational equations solver re-propagates at the new vector; otherwise
the parameter container values are overwritten; in either case the cached
current estimate becomes the new vector. -/
def resetParameterEstimate (s : ResetState) (newParameterEstimate : List ℚ)
    (reintegrateVariationalEquations : Bool) : ResetState :=
  let s1 :=
    if s.integrateAndEstimateOrbit then
      { s with solverParameterEstimate := newParameterEstimate,
               solverReintegratedVariationalEquations := reintegrateVariationalEquations }
    else
      { s with parameterSetValues := newParameterEstimate }
  { s1 with currentParameterEstimate := newParameterEstimate }

/-! ### estimateParameters (header lines 455-610)

External collaborators of the loop, abstracted at their interfaces:

* `computeResidualsAndPartials v` stands for the call to
  `calculateObservationMatrixAndResiduals` with the dynamics (state
  transition and sensitivity data) propagated at parameter vector `v`; it
  returns the residual vector and, as a list of columns, the partials
  matrix.
* `leastSquares` stands for
  `linear_algebra::performLeastSquaresAdjustmentFromInformationMatrix`
  (declared in a different file of the repository), taking the normalized
  partials, the residuals, the concatenated weights and the normalized
  inverse a priori covariance, and returning the normalized correction and
  the inverse normalized covariance.
* `rms` stands for `linear_algebra::getVectorEntryRootMeanSquare`
  (declared in a different file of the repository). -/

/-- The external numerical collaborators of the estimation loop. -/
structure ExternalNumerics where
  computeResidualsAndPartials : List ℚ → List ℚ × List (List ℚ)
  leastSquares : List (List ℚ) → List ℚ → List ℚ → List (List ℚ) → List ℚ × List (List ℚ)
  rms : List ℚ → ℚ

/-- The `PodInput` fields read by `estimateParameters`. -/
structure PodInputModel where
  observationsAndTimes : PodInputType
  weightsMatrixDiagonals : WeightsDataStructure
  inverseAprioriCovariance : List (List ℚ)
  initialParameterDeviationEstimate : List ℚ
  reintegrateEquationsOnFirstIteration : Bool
  reintegrateVariationalEquations : Bool
  saveResidualsAndParametersFromEachIteration : Bool
  saveInformationMatrix : Bool

/-- `std::numeric_limits< double >::max( )`, the initial best residual. -/
def doubleMax : ℚ := (2 ^ 53 - 1) * 2 ^ 971

/-- The normalized inverse a priori covariance (header lines 528-539):
entry `(j, k)` divided by the product of normalization terms `j` and `k`. -/
def normalizedAprioriCovariance (inverseAPrioriCovariance : List (List ℚ))
    (transformationData : List ℚ) : List (List ℚ) :=
  inverseAPrioriCovariance.enum.map (fun row =>
    row.2.enum.map (fun x =>
      x.2 / (transformationData.getD row.1 0 * transformationData.getD x.1 0)))

/-- The values computed inside one loop iteration from the residuals and
partials of the currently propagated dynamics (header lines 520-549 and
574). -/
structure IterationData where
  residuals : List ℚ
  transformationData : List ℚ
  normalizedPartialsMatrix : List (List ℚ)
  inverseNormalizedCovariance : List (List ℚ)
  parameterAddition : List ℚ
  residualRms : ℚ

/-- One iteration's numeric pipeline as a function of the parameter vector
at which the dynamics are propagated: assemble residuals and partials,
normalize the partials in place, normalize the a priori matrix, solve, and
un-normalize the correction elementwise (the block and segment selections
of the C++ cover the whole matrix and vector, since
`numberOfEstimatedParameters` equals the full parameter vector size). -/
def iterationComputation (env : ExternalNumerics) (pod : PodInputModel)
    (dynamicsParameters : List ℚ) : IterationData :=
  let residualsAndPartials := env.computeResidualsAndPartials dynamicsParameters
  let normalized := normalizeObservationMatrix residualsAndPartials.2
  let leastSquaresOutput := env.leastSquares normalized.2 residualsAndPartials.1
    (getConcatenatedWeightsVector pod.weightsMatrixDiagonals)
    (normalizedAprioriCovariance pod.inverseAprioriCovariance normalized.1)
  { residuals := residualsAndPartials.1
    transformationData := normalized.1
    normalizedPartialsMatrix := normalized.2
    inverseNormalizedCovariance := leastSquaresOutput.2
    parameterAddition := cwiseQuotient leastSquaresOutput.1 normalized.1
    residualRms := env.rms residualsAndPartials.1 }

/-- The loop state of `estimateParameters`: the parameter vector at which
the dynamics are currently propagated, the running estimate, the best
iteration snapshot, the bookkeeping histories, the iteration counter, and
the cached current estimate member. -/
structure EstimationLoopState where
  dynamicsParameters : List ℚ
  newParameterEstimate : List ℚ
  bestResidual : ℚ
  bestParameterEstimate : List ℚ
  bestResiduals : List ℚ
  bestInformationMatrix : List (List ℚ)
  bestWeightsMatrixDiagonal : List ℚ
  bestTransformationData : List ℚ
  bestInverseNormalizedCovarianceMatrix : List (List ℚ)
  residualHistory : List (List ℚ)
  parameterHistory : List (List ℚ)
  rmsResidualHistory : List ℚ
  numberOfIterations : ℕ
  currentParameterEstimate : List ℚ

/-- Whether this iteration re-propagates: always after the first
iteration, on the first one only when requested (header line 500). -/
def iterationResets (pod : PodInputModel) (s : EstimationLoopState) : Bool :=
  decide (0 < s.numberOfIterations) || pod.reintegrateEquationsOnFirstIteration

/-- The parameter vector whose dynamics the residuals of this iteration
are computed against: the running estimate if this iteration resets, else
the vector of the previous propagation. -/
def iterationDynamics (pod : PodInputModel) (s : EstimationLoopState) : List ℚ :=
  if iterationResets pod s then s.newParameterEstimate else s.dynamicsParameters

/-- One full body of the do-while loop of `estimateParameters` (header
lines 497-599): optional reset, residual and partials computation,
normalization, solve, additive parameter update, history bookkeeping, RMS
computation, best-snapshot update on a strictly lower RMS, and counter
increment.  Note the reassignment `oldParameterEstimate =
newParameterEstimate` at header line 565: the best snapshot records the
post-update estimate next to the pre-update residuals. -/
def estimationIteration (env : ExternalNumerics) (pod : PodInputModel)
    (s : EstimationLoopState) : EstimationLoopState :=
  let dynamicsParameters := iterationDynamics pod s
  let currentParameterEstimate :=
    if iterationResets pod s then s.newParameterEstimate else s.currentParameterEstimate
  let c := iterationComputation env pod dynamicsParameters
  let newParameterEstimate := vecAdd s.newParameterEstimate c.parameterAddition
  let residualHistory :=
    if pod.saveResidualsAndParametersFromEachIteration then s.residualHistory ++ [c.residuals]
    else s.residualHistory
  let parameterHistory :=
    if pod.saveResidualsAndParametersFromEachIteration then
      (if s.numberOfIterations = 0 then s.parameterHistory ++ [s.newParameterEstimate]
       else s.parameterHistory) ++ [newParameterEstimate]
    else s.parameterHistory
  let rmsResidualHistory := s.rmsResidualHistory ++ [c.residualRms]
  if c.residualRms < s.bestResidual then
    { dynamicsParameters := dynamicsParameters
      newParameterEstimate := newParameterEstimate
      bestResidual := c.residualRms
      bestParameterEstimate := newParameterEstimate
      bestResiduals := c.residuals
      bestInformationMatrix :=
        if pod.saveInformationMatrix then c.normalizedPartialsMatrix
        else s.bestInformationMatrix
      bestWeightsMatrixDiagonal := getConcatenatedWeightsVector pod.weightsMatrixDiagonals
      bestTransformationData := c.transformationData
      bestInverseNormalizedCovarianceMatrix := c.inverseNormalizedCovariance
      residualHistory := residualHistory
      parameterHistory := parameterHistory
      rmsResidualHistory := rmsResidualHistory
      numberOfIterations := s.numberOfIterations + 1
      currentParameterEstimate := currentParameterEstimate }
  else
    { s with
      dynamicsParameters := dynamicsParameters
      newParameterEstimate := newParameterEstimate
      residualHistory := residualHistory
      parameterHistory := parameterHistory
      rmsResidualHistory := rmsResidualHistory
      numberOfIterations := s.numberOfIterations + 1
      currentParameterEstimate := currentParameterEstimate }

/-- The do-while loop, driven by explicit fuel: run one iteration, stop if
the convergence checker signals convergence, otherwise continue.  The
driver below supplies provably sufficient fuel, so this equals the
unbounded do-while (theorem `estimationLoop_eq` makes that exact). -/
def estimationLoopAux (env : ExternalNumerics) (pod : PodInputModel)
    (checker : EstimationConvergenceChecker) : ℕ → EstimationLoopState → EstimationLoopState
  | 0, s => s
  | n + 1, s =>
    let s' := estimationIteration env pod s
    if isEstimationConverged checker (s'.numberOfIterations : ℤ) s'.rmsResidualHistory then s'
    else estimationLoopAux env pod checker n s'

/-- Fuel that suffices for the loop started at `s`: once the iteration
counter reaches `maximumNumberOfIterations`, the checker stops the loop
unconditionally. -/
def estimationLoopFuel (checker : EstimationConvergenceChecker)
    (s : EstimationLoopState) : ℕ :=
  (checker.maximumNumberOfIterations - (s.numberOfIterations : ℤ)).toNat + 1

/-- The do-while loop of `estimateParameters`. -/
def estimationLoop (env : ExternalNumerics) (pod : PodInputModel)
    (checker : EstimationConvergenceChecker) (s : EstimationLoopState) : EstimationLoopState :=
  estimationLoopAux env pod checker (estimationLoopFuel checker s) s

/-- The state entering the loop (header lines 460-496): the nominal
parameter values become the cached current estimate, the running estimate
is nominal plus the caller-supplied initial deviation, the best residual
starts at the largest double, and the best snapshot buffers start as
zeros of the appropriate dimensions.  The dynamics were propagated at the
nominal parameters when the manager was initialized. -/
def initialEstimationState (pod : PodInputModel) (nominalParameters : List ℚ) :
    EstimationLoopState :=
  let parameterVectorSize := nominalParameters.length
  let totalNumberOfObservations := (getNumberOfObservationsPerObservable pod.observationsAndTimes).2
  { dynamicsParameters := nominalParameters
    newParameterEstimate := vecAdd nominalParameters pod.initialParameterDeviationEstimate
    bestResidual := doubleMax
    bestParameterEstimate := List.replicate parameterVectorSize 0
    bestResiduals := List.replicate totalNumberOfObservations 0
    bestInformationMatrix :=
      List.replicate totalNumberOfObservations (List.replicate parameterVectorSize 0)
    bestWeightsMatrixDiagonal := List.replicate totalNumberOfObservations 0
    bestTransformationData := List.replicate parameterVectorSize 0
    bestInverseNormalizedCovarianceMatrix :=
      List.replicate parameterVectorSize (List.replicate parameterVectorSize 0)
    residualHistory := []
    parameterHistory := []
    rmsResidualHistory := []
    numberOfIterations := 0
    currentParameterEstimate := nominalParameters }

/-- The `PodOutput` built at header lines 607-609 from the best snapshot
and the histories. -/
structure PodOutput where
  parameterEstimate : List ℚ
  residuals : List ℚ
  normalizedInformationMatrix : List (List ℚ)
  weightsMatrixDiagonal : List ℚ
  informationMatrixTransformationDiagonal : List ℚ
  inverseNormalizedCovarianceMatrix : List (List ℚ)
  residualStandardDeviation : ℚ
  residualHistory : List (List ℚ)
  parameterHistory : List (List ℚ)

/-- Projection of the final loop state onto the returned `PodOutput`. -/
def podOutputOfState (s : EstimationLoopState) : PodOutput :=
  { parameterEstimate := s.bestParameterEstimate
    residuals := s.bestResiduals
    normalizedInformationMatrix := s.bestInformationMatrix
    weightsMatrixDiagonal := s.bestWeightsMatrixDiagonal
    informationMatrixTransformationDiagonal := s.bestTransformationData
    inverseNormalizedCovarianceMatrix := s.bestInverseNormalizedCovarianceMatrix
    residualStandardDeviation := s.bestResidual
    residualHistory := s.residualHistory
    parameterHistory := s.parameterHistory }

/-- The final loop state of `estimateParameters`, run with the given
collaborators, input, checker and nominal parameter values. -/
def estimateParametersFinalState (env : ExternalNumerics) (pod : PodInputModel)
    (checker : EstimationConvergenceChecker) (nominalParameters : List ℚ) :
    EstimationLoopState :=
  estimationLoop env pod checker (initialEstimationState pod nominalParameters)

/-- Embedding of `estimateParameters`: the returned object is built from
the best snapshot of the final loop state. -/
def estimateParameters (env : ExternalNumerics) (pod : PodInputModel)
    (checker : EstimationConvergenceChecker) (nominalParameters : List ℚ) : PodOutput :=
  podOutputOfState (estimateParametersFinalState env pod checker nominalParameters)

/-! ## Helper lemmas -/

theorem getD_map_of_lt (l : List α) (f : α → β) (j : ℕ) (hj : j < l.length)
    (d : β) (d' : α) : (l.map f).getD j d = f (l.getD j d') := by
  rw [List.getD_eq_getElem _ _ (by simpa using hj), List.getD_eq_getElem _ _ hj,
    List.getElem_map]

theorem foldl_min_le_init (xs : List ℚ) (a : ℚ) : xs.foldl min a ≤ a := by
  induction xs generalizing a with
  | nil => simp
  | cons y ys ih => exact le_trans (ih (min a y)) (min_le_left a y)

theorem foldl_min_le_mem (xs : List ℚ) (a : ℚ) (x : ℚ) (hx : x ∈ xs) :
    xs.foldl min a ≤ x := by
  induction xs generalizing a with
  | nil => cases hx
  | cons y ys ih =>
    rcases List.mem_cons.mp hx with h | h
    · rw [h]
      exact le_trans (foldl_min_le_init ys (min a y)) (min_le_right a y)
    · exact ih (min a y) h

theorem foldl_min_mem (xs : List ℚ) (a : ℚ) : xs.foldl min a = a ∨ xs.foldl min a ∈ xs := by
  induction xs generalizing a with
  | nil => exact Or.inl rfl
  | cons y ys ih =>
    rcases ih (min a y) with h | h
    · rcases min_choice a y with hm | hm
      · exact Or.inl (by rw [List.foldl_cons, h, hm])
      · exact Or.inr (by rw [List.foldl_cons, h, hm]; exact List.mem_cons_self y ys)
    · exact Or.inr (List.mem_cons_of_mem y h)

theorem init_le_foldl_max (xs : List ℚ) (a : ℚ) : a ≤ xs.foldl max a := by
  induction xs generalizing a with
  | nil => simp
  | cons y ys ih => exact le_trans (le_max_left a y) (ih (max a y))

theorem mem_le_foldl_max (xs : List ℚ) (a : ℚ) (x : ℚ) (hx : x ∈ xs) :
    x ≤ xs.foldl max a := by
  induction xs generalizing a with
  | nil => cases hx
  | cons y ys ih =>
    rcases List.mem_cons.mp hx with h | h
    · rw [h]
      exact le_trans (le_max_right a y) (init_le_foldl_max ys (max a y))
    · exact ih (max a y) h

theorem foldl_max_mem (xs : List ℚ) (a : ℚ) : xs.foldl max a = a ∨ xs.foldl max a ∈ xs := by
  induction xs generalizing a with
  | nil => exact Or.inl rfl
  | cons y ys ih =>
    rcases ih (max a y) with h | h
    · rcases max_choice a y with hm | hm
      · exact Or.inl (by rw [List.foldl_cons, h, hm])
      · exact Or.inr (by rw [List.foldl_cons, h, hm]; exact List.mem_cons_self y ys)
    · exact Or.inr (List.mem_cons_of_mem y h)

theorem colMinimum_le (col : List ℚ) (x : ℚ) (hx : x ∈ col) : colMinimum col ≤ x := by
  cases col with
  | nil => cases hx
  | cons y ys =>
    rcases List.mem_cons.mp hx with h | h
    · rw [h]; exact foldl_min_le_init ys y
    · exact foldl_min_le_mem ys y x h

theorem le_colMaximum (col : List ℚ) (x : ℚ) (hx : x ∈ col) : x ≤ colMaximum col := by
  cases col with
  | nil => cases hx
  | cons y ys =>
    rcases List.mem_cons.mp hx with h | h
    · rw [h]; exact init_le_foldl_max ys y
    · exact mem_le_foldl_max ys y x h

theorem colMinimum_mem (col : List ℚ) (hne : col ≠ []) : colMinimum col ∈ col := by
  cases col with
  | nil => exact absurd rfl hne
  | cons y ys =>
    rcases foldl_min_mem ys y with h | h
    · rw [colMinimum, h]; exact List.mem_cons_self y ys
    · exact List.mem_cons_of_mem y h

theorem colMaximum_mem (col : List ℚ) (hne : col ≠ []) : colMaximum col ∈ col := by
  cases col with
  | nil => exact absurd rfl hne
  | cons y ys =>
    rcases foldl_max_mem ys y with h | h
    · rw [colMaximum, h]; exact List.mem_cons_self y ys
    · exact List.mem_cons_of_mem y h

theorem colMinimum_le_colMaximum (col : List ℚ) (hne : col ≠ []) :
    colMinimum col ≤ colMaximum col := by
  cases col with
  | nil => exact absurd rfl hne
  | cons y ys => exact le_trans (foldl_min_le_init ys y) (init_le_foldl_max ys y)

/-! ## Claim C8: sufficient stopping conditions of the convergence checker -/

/-- C8: for every iteration count and non-empty RMS history, the
convergence check returns true (stop) if the iteration count has reached
`maximumNumberOfIterations`, or if the last RMS value lies below
`minimumResidual`, or, once the history has at least two entries, if the
absolute difference of the last two RMS values lies below
`minimumResidualChange`. -/
theorem isEstimationConverged_sufficient_conditions
    (checker : EstimationConvergenceChecker) (numberOfIterations : ℤ)
    (rmsResidualHistory : List ℚ) (hne : rmsResidualHistory ≠ [])
    (hstop : checker.maximumNumberOfIterations ≤ numberOfIterations ∨
      rmsResidualHistory.getD (rmsResidualHistory.length - 1) 0 < checker.minimumResidual ∨
      (2 ≤ rmsResidualHistory.length ∧
        |rmsResidualHistory.getD (rmsResidualHistory.length - 1) 0 -
          rmsResidualHistory.getD (rmsResidualHistory.length - 2) 0| <
          checker.minimumResidualChange)) :
    isEstimationConverged checker numberOfIterations rmsResidualHistory = true := by
  unfold isEstimationConverged
  simp only [Bool.or_eq_true, Bool.and_eq_true, decide_eq_true_eq]
  rcases hstop with h | h | ⟨h2, h⟩
  · exact Or.inl (Or.inl (Or.inl h))
  · exact Or.inl (Or.inl (Or.inr h))
  · exact Or.inr ⟨by omega, h⟩

/-- Witness for C8 at a concrete input: five completed iterations with
`maximumNumberOfIterations = 5` stop the estimation. -/
theorem isEstimationConverged_sufficient_conditions_witness :
    ([(1 : ℚ)] ≠ ([] : List ℚ)) ∧
      isEstimationConverged ⟨5, 0, 0, 2⟩ 5 [(1 : ℚ)] = true := by
  refine ⟨by simp, ?_⟩
  exact isEstimationConverged_sufficient_conditions ⟨5, 0, 0, 2⟩ 5 [(1 : ℚ)] (by simp)
    (Or.inl (by norm_num))

/-! ## Claim C2: the "iterations without improvement" stopping rule

The claim (and the intent documented in the C++ comments, which speak of
the number of iterations without reduction of the residual) says the
checker stops once the number of iterations since the lowest RMS exceeds
`numberOfIterationsWithoutImprovement`.  The code instead computes
`std::distance( begin, std::max_element( ... ) ) - size( )`: the distance
to the first largest (worst) RMS value, minus the unsigned size, evaluated
in unsigned arithmetic.  For a non-empty history the mathematically
negative difference wraps around to nearly `2 ^ 64`, so the comparison
against the threshold is false and this rule never fires.

Failing input: history `[1, 5, 5, 5, 5]` (best RMS at index 0, so four
iterations without improvement, exceeding the threshold 2), five completed
iterations, `maximumNumberOfIterations = 10`, `minimumResidualChange = 0`,
`minimumResidual = 10 ^ -20`.  The claim demands `true`; the code returns
`false`. -/

/-- C2 (code bug): at the failing input, where the iterations without
improvement (4, best RMS at the start of the history) exceed the
threshold (2) and no other stopping condition holds, the checker does not
stop. -/
theorem withoutImprovement_rule_never_fires_at_failing_input :
    isEstimationConverged ⟨10, 0, 1 / 100000000000000000000, 2⟩ 5 [1, 5, 5, 5, 5] = false := by
  simp only [isEstimationConverged, maxElementIndex, maxElementIndexAux, uint64SubWrap,
    List.getD]
  norm_num

/-! ## Claim C9: idempotence of resetParameterEstimate -/

/-- C9: resetting the parameter estimate twice with the same vector (and
the same reintegration flag) leaves the cached current estimate unchanged
after the second call, and after any single call the cached current
estimate equals the vector passed in. -/
theorem resetParameterEstimate_idempotent_cached_estimate (s : ResetState)
    (v : List ℚ) (reintegrateVariationalEquations : Bool) :
    (resetParameterEstimate (resetParameterEstimate s v reintegrateVariationalEquations) v
        reintegrateVariationalEquations).currentParameterEstimate =
      (resetParameterEstimate s v reintegrateVariationalEquations).currentParameterEstimate ∧
    (resetParameterEstimate s v reintegrateVariationalEquations).currentParameterEstimate = v := by
  constructor <;> by_cases h : s.integrateAndEstimateOrbit <;>
    simp [resetParameterEstimate, h]

/-! ## Claims C6 and C7: column normalization -/

theorem normalizationTerm_choice (col : List ℚ) :
    normalizationTerm col = colMinimum col ∨ normalizationTerm col = colMaximum col := by
  unfold normalizationTerm
  split
  · exact Or.inl rfl
  · exact Or.inr rfl

theorem abs_normalizationTerm (col : List ℚ) (hne : col ≠ []) :
    |normalizationTerm col| = max |colMinimum col| |colMaximum col| := by
  have hminmax : colMinimum col ≤ colMaximum col := colMinimum_le_colMaximum col hne
  unfold normalizationTerm
  split
  · rename_i hgt
    refine (max_eq_left ?_).symm
    rcases le_or_lt 0 (colMaximum col) with hM | hM
    · calc |colMaximum col| = colMaximum col := abs_of_nonneg hM
        _ ≤ |colMinimum col| := le_of_lt hgt
    · have hm : colMinimum col < 0 := lt_of_le_of_lt hminmax hM
      calc |colMaximum col| = -colMaximum col := abs_of_neg hM
        _ ≤ -colMinimum col := by linarith
        _ = |colMinimum col| := (abs_of_neg hm).symm
  · rename_i hle
    push_neg at hle
    have hM : 0 ≤ colMaximum col := le_trans (abs_nonneg _) hle
    refine (max_eq_right ?_).symm
    calc |colMinimum col| ≤ colMaximum col := hle
      _ = |colMaximum col| := (abs_of_nonneg hM).symm

theorem abs_le_abs_normalizationTerm (col : List ℚ) (hne : col ≠ [])
    (x : ℚ) (hx : x ∈ col) : |x| ≤ |normalizationTerm col| := by
  rw [abs_normalizationTerm col hne]
  rcases abs_cases x with ⟨hax, _⟩ | ⟨hax, _⟩
  · calc |x| = x := hax
      _ ≤ colMaximum col := le_colMaximum col x hx
      _ ≤ |colMaximum col| := le_abs_self _
      _ ≤ max |colMinimum col| |colMaximum col| := le_max_right _ _
  · calc |x| = -x := hax
      _ ≤ -colMinimum col := neg_le_neg (colMinimum_le col x hx)
      _ ≤ |colMinimum col| := neg_le_abs _
      _ ≤ max |colMinimum col| |colMaximum col| := le_max_left _ _

theorem normalizationTerm_ne_zero (col : List ℚ) (hne : col ≠ [])
    (hnz : ∃ x ∈ col, x ≠ 0) : normalizationTerm col ≠ 0 := by
  intro h0
  obtain ⟨x, hx, hxne⟩ := hnz
  have := abs_le_abs_normalizationTerm col hne x hx
  rw [h0, abs_zero] at this
  exact hxne (abs_eq_zero.mp (le_antisymm this (abs_nonneg x)))

/-- C6: for every matrix and every non-degenerate (not identically zero)
column, the normalization scale factor is the one of the column's minimum
and maximum with the larger absolute magnitude (it is one of the two
extreme entries, with its sign kept, and its absolute value is the larger
of the two magnitudes), the column is divided by it, and afterwards every
entry of the normalized column lies within `[-1, 1]`. -/
theorem nonzero_column_normalization_bounds (observationMatrix : List (List ℚ)) (j : ℕ)
    (hj : j < observationMatrix.length) (hne : observationMatrix.getD j [] ≠ [])
    (hnz : ∃ x ∈ observationMatrix.getD j [], x ≠ 0) :
    ((normalizeObservationMatrix observationMatrix).1.getD j 0 =
        colMinimum (observationMatrix.getD j []) ∨
      (normalizeObservationMatrix observationMatrix).1.getD j 0 =
        colMaximum (observationMatrix.getD j [])) ∧
    |(normalizeObservationMatrix observationMatrix).1.getD j 0| =
      max |colMinimum (observationMatrix.getD j [])|
        |colMaximum (observationMatrix.getD j [])| ∧
    (normalizeObservationMatrix observationMatrix).2.getD j [] =
      (observationMatrix.getD j []).map
        (fun x => x / (normalizeObservationMatrix observationMatrix).1.getD j 0) ∧
    ∀ x ∈ (normalizeObservationMatrix observationMatrix).2.getD j [], -1 ≤ x ∧ x ≤ 1 := by
  have hterm : (normalizeObservationMatrix observationMatrix).1.getD j 0 =
      normalizationTerm (observationMatrix.getD j []) :=
    getD_map_of_lt observationMatrix normalizationTerm j hj 0 []
  have hcol : (normalizeObservationMatrix observationMatrix).2.getD j [] =
      (observationMatrix.getD j []).map
        (fun x => x / normalizationTerm (observationMatrix.getD j [])) :=
    getD_map_of_lt observationMatrix _ j hj [] []
  have htne : normalizationTerm (observationMatrix.getD j []) ≠ 0 :=
    normalizationTerm_ne_zero _ hne hnz
  refine ⟨?_, ?_, ?_, ?_⟩
  · rw [hterm]; exact normalizationTerm_choice _
  · rw [hterm]; exact abs_normalizationTerm _ hne
  · rw [hcol, hterm]
  · intro x hx
    rw [hcol] at hx
    obtain ⟨y, hy, rfl⟩ := List.mem_map.mp hx
    have hbound : |y / normalizationTerm (observationMatrix.getD j [])| ≤ 1 := by
      rw [abs_div]
      exact div_le_one_of_le₀ (abs_le_abs_normalizationTerm _ hne y hy) (abs_nonneg _)
    exact abs_le.mp hbound

/-- Witness for C6: the single column `[1, -2]` receives scale factor
`-2` and is normalized to `[-1/2, 1]`, inside `[-1, 1]`. -/
theorem nonzero_column_normalization_bounds_witness :
    (0 < [[(1 : ℚ), -2]].length ∧ [[(1 : ℚ), -2]].getD 0 [] ≠ [] ∧
      ∃ x ∈ [[(1 : ℚ), -2]].getD 0 [], x ≠ 0) ∧
    (((normalizeObservationMatrix [[(1 : ℚ), -2]]).1.getD 0 0 =
        colMinimum ([[(1 : ℚ), -2]].getD 0 []) ∨
      (normalizeObservationMatrix [[(1 : ℚ), -2]]).1.getD 0 0 =
        colMaximum ([[(1 : ℚ), -2]].getD 0 [])) ∧
    |(normalizeObservationMatrix [[(1 : ℚ), -2]]).1.getD 0 0| =
      max |colMinimum ([[(1 : ℚ), -2]].getD 0 [])|
        |colMaximum ([[(1 : ℚ), -2]].getD 0 [])| ∧
    (normalizeObservationMatrix [[(1 : ℚ), -2]]).2.getD 0 [] =
      ([[(1 : ℚ), -2]].getD 0 []).map
        (fun x => x / (normalizeObservationMatrix [[(1 : ℚ), -2]]).1.getD 0 0) ∧
    ∀ x ∈ (normalizeObservationMatrix [[(1 : ℚ), -2]]).2.getD 0 [], -1 ≤ x ∧ x ≤ 1) := by
  refine ⟨⟨by norm_num, by simp [List.getD], ⟨1, by simp [List.getD], by norm_num⟩⟩, ?_⟩
  exact nonzero_column_normalization_bounds [[(1 : ℚ), -2]] 0 (by norm_num)
    (by simp [List.getD]) ⟨1, by simp [List.getD], by norm_num⟩

/-- C7: for every matrix with an identically zero (non-empty) column, the
normalization scale factor of that column is zero, and the routine still
divides the column by that zero factor (there is no error path and the
column is not skipped; over the rationals the division by zero is the
total function `x / 0`, where the C++ doubles would produce NaN). -/
theorem zero_column_zero_scale_factor (observationMatrix : List (List ℚ)) (j : ℕ)
    (hj : j < observationMatrix.length) (hne : observationMatrix.getD j [] ≠ [])
    (hzero : ∀ x ∈ observationMatrix.getD j [], x = 0) :
    (normalizeObservationMatrix observationMatrix).1.getD j 0 = 0 ∧
    (normalizeObservationMatrix observationMatrix).2.getD j [] =
      (observationMatrix.getD j []).map (fun x => x / 0) := by
  have hmin : colMinimum (observationMatrix.getD j []) = 0 :=
    hzero _ (colMinimum_mem _ hne)
  have hmax : colMaximum (observationMatrix.getD j []) = 0 :=
    hzero _ (colMaximum_mem _ hne)
  have hterm0 : normalizationTerm (observationMatrix.getD j []) = 0 := by
    unfold normalizationTerm
    rw [hmin, hmax]
    norm_num
  have hterm : (normalizeObservationMatrix observationMatrix).1.getD j 0 =
      normalizationTerm (observationMatrix.getD j []) :=
    getD_map_of_lt observationMatrix normalizationTerm j hj 0 []
  have hcol : (normalizeObservationMatrix observationMatrix).2.getD j [] =
      (observationMatrix.getD j []).map
        (fun x => x / normalizationTerm (observationMatrix.getD j [])) :=
    getD_map_of_lt observationMatrix _ j hj [] []
  refine ⟨by rw [hterm, hterm0], ?_⟩
  rw [hcol]
  simp only [hterm0]

/-- Witness for C7: the all-zero column `[0, 0]` yields scale factor `0`
and is divided by zero. -/
theorem zero_column_zero_scale_factor_witness :
    (0 < [[(0 : ℚ), 0]].length ∧ [[(0 : ℚ), 0]].getD 0 [] ≠ [] ∧
      ∀ x ∈ [[(0 : ℚ), 0]].getD 0 [], x = 0) ∧
    (normalizeObservationMatrix [[(0 : ℚ), 0]]).1.getD 0 0 = 0 ∧
    (normalizeObservationMatrix [[(0 : ℚ), 0]]).2.getD 0 [] =
      ([[(0 : ℚ), 0]].getD 0 []).map (fun x => x / 0) := by
  refine ⟨⟨by norm_num, by simp [List.getD], by simp [List.getD]⟩, ?_⟩
  exact zero_column_zero_scale_factor [[(0 : ℚ), 0]] 0 (by norm_num)
    (by simp [List.getD]) (by simp [List.getD])

/-! ## Claim C4: missing observation manager

Scenario D of the specification demands that requesting
`computeObservationsWithPartials` for an observable type with no
registered manager raise a ConfigurationError naming the type.  The
guard that throws such an error exists only in the accessor
`getObservationManager` (header lines 700-712).  The estimation path,
`calculateObservationMatrixAndResiduals` (header line 367), instead reads
the manager map with `operator[ ]`, which default-constructs a null
`boost::shared_ptr` for the missing type (mutating the manager map) and
immediately dereferences it: undefined behaviour, not a raised error. -/

/-- C4 (code bug): at the failing input (observation data for observable
type 5, empty manager map), the assembler dereferences the
default-constructed null manager pointer instead of raising the
configuration error that `getObservationManager` would raise for the same
type; the two outcomes are distinct. -/
theorem missing_manager_null_dereference_at_failing_input :
    calculateObservationMatrixAndResiduals []
        [(5, [(0, ⟨[1, 2], [0, 1], 0⟩)])] =
      .error (.nullManagerDereference 5) ∧
    getObservationManager [] 5 = .error (.managerNotFound 5) ∧
    EstimationError.nullManagerDereference 5 ≠ EstimationError.managerNotFound 5 := by
  exact ⟨rfl, rfl, by decide⟩

/-! ## Claim C1: alignment of the weight vector with residuals and
Jacobian rows -/

/-- Total observation count of the link-end groups of one observable. -/
def innerObservationCount (groups : List (ℕ × SingleObservableData)) : ℕ :=
  (groups.map (fun inner => inner.2.observations.length)).sum

theorem total_observations_eq (observationsAndTimes : PodInputType) :
    (getNumberOfObservationsPerObservable observationsAndTimes).2 =
      (observationsAndTimes.map (fun entry => innerObservationCount entry.2)).sum := by
  unfold getNumberOfObservationsPerObservable innerObservationCount
  simp only [List.map_map]
  rfl

theorem inner_foldl_append (groups : List (ℕ × List ℚ)) (acc : List ℚ) :
    groups.foldl (fun acc2 inner => acc2 ++ inner.2) acc =
      acc ++ concatMap (·.2) groups := by
  induction groups generalizing acc with
  | nil => simp [concatMap]
  | cons g gs ih => simp [concatMap, ih, List.append_assoc]

theorem getConcatenatedWeightsVector_eq_concatMap (weightsData : WeightsDataStructure) :
    getConcatenatedWeightsVector weightsData =
      concatMap (fun entry => concatMap (·.2) entry.2) weightsData := by
  have general : ∀ (w : WeightsDataStructure) (acc : List ℚ),
      w.foldl (fun acc entry => entry.2.foldl (fun acc2 inner => acc2 ++ inner.2) acc) acc =
        acc ++ concatMap (fun entry => concatMap (·.2) entry.2) w := by
    intro w
    induction w with
    | nil => intro acc; simp [concatMap]
    | cons e es ih =>
      intro acc
      rw [List.foldl_cons, ih, inner_foldl_append]
      simp [concatMap, List.append_assoc]
  simpa using general weightsData []

theorem length_concatMap (f : α → List β) (l : List α) :
    (concatMap f l).length = (l.map (fun x => (f x).length)).sum := by
  induction l with
  | nil => simp [concatMap]
  | cons x xs ih => simp [concatMap, ih]

theorem innerWeightsMirror_facts (groups : List (ℕ × SingleObservableData))
    (wgroups : List (ℕ × List ℚ)) (h : innerWeightsMirror groups wgroups = true) :
    (concatMap (·.2) wgroups).length = innerObservationCount groups ∧
    ∀ t : ℕ,
      concatMap (fun inner => (List.range inner.2.length).map (fun k => (t, inner.1, k)))
          wgroups =
        concatMap
          (fun inner =>
            (List.range inner.2.observations.length).map (fun k => (t, inner.1, k)))
          groups := by
  induction groups generalizing wgroups with
  | nil =>
    cases wgroups with
    | nil => exact ⟨rfl, fun _ => rfl⟩
    | cons w ws => simp [innerWeightsMirror] at h
  | cons g gs ih =>
    cases wgroups with
    | nil => obtain ⟨l, d⟩ := g; simp [innerWeightsMirror] at h
    | cons w ws =>
      obtain ⟨l, d⟩ := g
      obtain ⟨l', wv⟩ := w
      simp only [innerWeightsMirror, Bool.and_eq_true, beq_iff_eq] at h
      obtain ⟨⟨hkey, hlen⟩, hrest⟩ := h
      obtain ⟨ihlen, ihtriples⟩ := ih ws hrest
      constructor
      · simp [concatMap, innerObservationCount, List.length_append, ihlen, hlen,
          innerObservationCount]
      · intro t
        simp only [concatMap, ihtriples t, hkey, hlen]

theorem assembleSingleObservable_lengths (manager : ObservationManager)
    (groups : List (ℕ × SingleObservableData))
    (hsizes : ∀ inner ∈ groups,
      (manager inner.2.times inner.1 inner.2.referenceLinkEndType).1.length =
        inner.2.observations.length ∧
      (manager inner.2.times inner.1 inner.2.referenceLinkEndType).2.length =
        inner.2.observations.length) :
    (assembleSingleObservable manager groups).1.length = innerObservationCount groups ∧
    (assembleSingleObservable manager groups).2.length = innerObservationCount groups := by
  induction groups with
  | nil => exact ⟨rfl, rfl⟩
  | cons g gs ih =>
    obtain ⟨l, d⟩ := g
    have hg := hsizes (l, d) (List.mem_cons_self _ _)
    have ihs := ih (fun inner hinner => hsizes inner (List.mem_cons_of_mem _ hinner))
    constructor
    · simp only [assembleSingleObservable, vecSub, List.length_append, List.length_zipWith,
        innerObservationCount, List.map_cons, List.sum_cons]
      rw [hg.1, min_self, ihs.1]
      rfl
    · simp only [assembleSingleObservable, List.length_append, innerObservationCount,
        List.map_cons, List.sum_cons]
      rw [hg.2, ihs.2]
      rfl

/-- C1: for a weights map that mirrors the key structure and per-group
sizes of the observation map, the assembled weight vector has exactly as
many entries as the total observation count, and its walk through
(observable type, link ends, observation index) triples is identical to
the walk the residual/Jacobian assembler makes, whose residual vector and
Jacobian both also have exactly one row per observation: weight `i`,
residual `i` and Jacobian row `i` belong to the same triple. -/
theorem weightVector_alignment_with_residuals_and_jacobian
    (managers : ObservationManagerMap) (observationsAndTimes : PodInputType)
    (weightsData : WeightsDataStructure)
    (hmirror : weightsMirror observationsAndTimes weightsData = true)
    (hmanagers : ∀ entry ∈ observationsAndTimes, ∃ manager,
      lookupObservationManager managers entry.1 = some manager ∧
      ∀ inner ∈ entry.2,
        (manager inner.2.times inner.1 inner.2.referenceLinkEndType).1.length =
          inner.2.observations.length ∧
        (manager inner.2.times inner.1 inner.2.referenceLinkEndType).2.length =
          inner.2.observations.length) :
    (getConcatenatedWeightsVector weightsData).length =
      (getNumberOfObservationsPerObservable observationsAndTimes).2 ∧
    concatenatedWeightTriples weightsData =
      stackedObservationTriples observationsAndTimes ∧
    ∃ residuals jacobian,
      calculateObservationMatrixAndResiduals managers observationsAndTimes =
        .ok (residuals, jacobian) ∧
      residuals.length = (getNumberOfObservationsPerObservable observationsAndTimes).2 ∧
      jacobian.length = (getNumberOfObservationsPerObservable observationsAndTimes).2 := by
  rw [getConcatenatedWeightsVector_eq_concatMap, total_observations_eq]
  induction observationsAndTimes generalizing weightsData with
  | nil =>
    cases weightsData with
    | nil => exact ⟨rfl, rfl, [], [], rfl, rfl, rfl⟩
    | cons w ws => simp [weightsMirror] at hmirror
  | cons e es ih =>
    cases weightsData with
    | nil => obtain ⟨t, groups⟩ := e; simp [weightsMirror] at hmirror
    | cons w ws =>
      obtain ⟨t, groups⟩ := e
      obtain ⟨t', wgroups⟩ := w
      simp only [weightsMirror, Bool.and_eq_true, beq_iff_eq] at hmirror
      obtain ⟨⟨hkey, hinner⟩, hrest⟩ := hmirror
      obtain ⟨ihlen, ihtriples, residualsRest, jacobianRest, ihcalc, ihreslen, ihjaclen⟩ :=
        ih ws hrest (fun entry hentry => hmanagers entry (List.mem_cons_of_mem _ hentry))
      obtain ⟨manager, hlookup, hsizes⟩ := hmanagers (t, groups) (List.mem_cons_self _ _)
      obtain ⟨innerlen, innertriples⟩ := innerWeightsMirror_facts groups wgroups hinner
      obtain ⟨reslen, jaclen⟩ := assembleSingleObservable_lengths manager groups hsizes
      refine ⟨?_, ?_, ?_⟩
      · simp only [concatMap, List.length_append, length_concatMap, List.map_cons,
          List.sum_cons]
        rw [← length_concatMap, innerlen]
        simp only [length_concatMap] at ihlen
        rw [ihlen]
      · subst hkey
        simp only [concatenatedWeightTriples, stackedObservationTriples, concatMap]
          at ihtriples ⊢
        rw [innertriples, ihtriples]
      · refine ⟨(assembleSingleObservable manager groups).1 ++ residualsRest,
          (assembleSingleObservable manager groups).2 ++ jacobianRest, ?_, ?_, ?_⟩
        · simp only [calculateObservationMatrixAndResiduals, hlookup, ihcalc]
        · simp only [List.length_append, reslen, ihreslen, List.map_cons, List.sum_cons]
        · simp only [List.length_append, jaclen, ihjaclen, List.map_cons, List.sum_cons]

/-- Witness for C1: one observable type (0) with one link-end group (7)
holding two observations, a mirroring weights map, and a well-sized
manager. -/
theorem weightVector_alignment_witness :
    (weightsMirror [(0, [(7, ⟨[3, 4], [1, 2], 0⟩)])] [(0, [(7, [10, 20])])] = true ∧
      ∀ entry ∈ ([(0, [(7, (⟨[3, 4], [1, 2], 0⟩ : SingleObservableData))])] : PodInputType),
        ∃ manager,
          lookupObservationManager
              [(0, fun times _ _ => (times.map (fun _ => 0), times.map (fun _ => [0])))]
              entry.1 = some manager ∧
          ∀ inner ∈ entry.2,
            (manager inner.2.times inner.1 inner.2.referenceLinkEndType).1.length =
              inner.2.observations.length ∧
            (manager inner.2.times inner.1 inner.2.referenceLinkEndType).2.length =
              inner.2.observations.length) ∧
    ((getConcatenatedWeightsVector [(0, [(7, [10, 20])])]).length =
      (getNumberOfObservationsPerObservable
        [(0, [(7, ⟨[3, 4], [1, 2], 0⟩)])]).2 ∧
    concatenatedWeightTriples [(0, [(7, [10, 20])])] =
      stackedObservationTriples [(0, [(7, ⟨[3, 4], [1, 2], 0⟩)])] ∧
    ∃ residuals jacobian,
      calculateObservationMatrixAndResiduals
          [(0, fun times _ _ => (times.map (fun _ => 0), times.map (fun _ => [0])))]
          [(0, [(7, ⟨[3, 4], [1, 2], 0⟩)])] =
        .ok (residuals, jacobian) ∧
      residuals.length =
        (getNumberOfObservationsPerObservable [(0, [(7, ⟨[3, 4], [1, 2], 0⟩)])]).2 ∧
      jacobian.length =
        (getNumberOfObservationsPerObservable [(0, [(7, ⟨[3, 4], [1, 2], 0⟩)])]).2) := by
  have hmirror : weightsMirror [(0, [(7, ⟨[3, 4], [1, 2], 0⟩)])] [(0, [(7, [10, 20])])] =
      true := by rfl
  have hmanagers : ∀ entry ∈ ([(0, [(7, (⟨[3, 4], [1, 2], 0⟩ : SingleObservableData))])] :
      PodInputType),
      ∃ manager,
        lookupObservationManager
            [(0, fun times _ _ => (times.map (fun _ => 0), times.map (fun _ => [0])))]
            entry.1 = some manager ∧
        ∀ inner ∈ entry.2,
          (manager inner.2.times inner.1 inner.2.referenceLinkEndType).1.length =
            inner.2.observations.length ∧
          (manager inner.2.times inner.1 inner.2.referenceLinkEndType).2.length =
            inner.2.observations.length := by
    intro entry hentry
    rcases List.mem_singleton.mp hentry with rfl
    refine ⟨fun times _ _ => (times.map (fun _ => 0), times.map (fun _ => [0])), rfl, ?_⟩
    intro inner hinner
    rcases List.mem_singleton.mp hinner with rfl
    exact ⟨rfl, rfl⟩
  exact ⟨⟨hmirror, hmanagers⟩,
    weightVector_alignment_with_residuals_and_jacobian _ _ _ hmirror hmanagers⟩

/-! ## Iteration-level lemmas for the estimation loop -/

theorem estimationIteration_numberOfIterations (env : ExternalNumerics)
    (pod : PodInputModel) (s : EstimationLoopState) :
    (estimationIteration env pod s).numberOfIterations = s.numberOfIterations + 1 := by
  simp only [estimationIteration]
  split <;> rfl

theorem estimationIteration_rmsResidualHistory (env : ExternalNumerics)
    (pod : PodInputModel) (s : EstimationLoopState) :
    (estimationIteration env pod s).rmsResidualHistory =
      s.rmsResidualHistory ++
        [(iterationComputation env pod (iterationDynamics pod s)).residualRms] := by
  simp only [estimationIteration]
  split <;> rfl

theorem estimationIteration_bestResidual (env : ExternalNumerics)
    (pod : PodInputModel) (s : EstimationLoopState) :
    (estimationIteration env pod s).bestResidual =
      if (iterationComputation env pod (iterationDynamics pod s)).residualRms <
          s.bestResidual
      then (iterationComputation env pod (iterationDynamics pod s)).residualRms
      else s.bestResidual := by
  simp only [estimationIteration]
  split <;> simp_all

theorem estimationIteration_best_of_not_lt (env : ExternalNumerics)
    (pod : PodInputModel) (s : EstimationLoopState)
    (h : ¬ (iterationComputation env pod (iterationDynamics pod s)).residualRms <
      s.bestResidual) :
    (estimationIteration env pod s).bestResidual = s.bestResidual ∧
    (estimationIteration env pod s).bestParameterEstimate = s.bestParameterEstimate ∧
    (estimationIteration env pod s).bestResiduals = s.bestResiduals := by
  simp only [estimationIteration]
  rw [if_neg h]
  exact ⟨rfl, rfl, rfl⟩

theorem estimationIteration_best_of_lt (env : ExternalNumerics)
    (pod : PodInputModel) (s : EstimationLoopState)
    (h : (iterationComputation env pod (iterationDynamics pod s)).residualRms <
      s.bestResidual) :
    (estimationIteration env pod s).bestResidual =
      (iterationComputation env pod (iterationDynamics pod s)).residualRms ∧
    (estimationIteration env pod s).bestParameterEstimate =
      vecAdd s.newParameterEstimate
        (iterationComputation env pod (iterationDynamics pod s)).parameterAddition ∧
    (estimationIteration env pod s).bestResiduals =
      (iterationComputation env pod (iterationDynamics pod s)).residuals := by
  simp only [estimationIteration]
  rw [if_pos h]
  exact ⟨rfl, rfl, rfl⟩

theorem isEstimationConverged_false_lt_max (checker : EstimationConvergenceChecker)
    (numberOfIterations : ℤ) (rmsResidualHistory : List ℚ)
    (h : isEstimationConverged checker numberOfIterations rmsResidualHistory = false) :
    numberOfIterations < checker.maximumNumberOfIterations := by
  by_contra hc
  push_neg at hc
  unfold isEstimationConverged at h
  simp only [Bool.or_eq_false_iff, decide_eq_false_iff_not] at h
  exact h.1.1.1 hc

/-- Generic preservation of a predicate along the fueled loop. -/
theorem estimationLoopAux_preserves (env : ExternalNumerics) (pod : PodInputModel)
    (checker : EstimationConvergenceChecker) (P : EstimationLoopState → Prop)
    (hstep : ∀ s, P s → P (estimationIteration env pod s)) :
    ∀ (n : ℕ) (s : EstimationLoopState), P s → P (estimationLoopAux env pod checker n s) := by
  intro n
  induction n with
  | zero => intro s hs; exact hs
  | succ m ih =>
    intro s hs
    simp only [estimationLoopAux]
    split
    · exact hstep s hs
    · exact ih _ (hstep s hs)

theorem estimationLoopAux_count_le (env : ExternalNumerics) (pod : PodInputModel)
    (checker : EstimationConvergenceChecker) :
    ∀ (n : ℕ) (s : EstimationLoopState),
      s.numberOfIterations ≤ (estimationLoopAux env pod checker n s).numberOfIterations := by
  intro n
  induction n with
  | zero => intro s; exact le_refl _
  | succ m ih =>
    intro s
    simp only [estimationLoopAux]
    split
    · rw [estimationIteration_numberOfIterations]; omega
    · exact le_trans (by rw [estimationIteration_numberOfIterations]; omega)
        (ih (estimationIteration env pod s))

theorem estimationLoopAux_count_ge_one (env : ExternalNumerics) (pod : PodInputModel)
    (checker : EstimationConvergenceChecker) (n : ℕ) (s : EstimationLoopState) :
    s.numberOfIterations + 1 ≤
      (estimationLoopAux env pod checker (n + 1) s).numberOfIterations := by
  simp only [estimationLoopAux]
  split
  · rw [estimationIteration_numberOfIterations]
  · exact le_trans (le_of_eq (estimationIteration_numberOfIterations env pod s).symm)
      (estimationLoopAux_count_le env pod checker n (estimationIteration env pod s))

theorem estimationLoopAux_count_bound (env : ExternalNumerics) (pod : PodInputModel)
    (checker : EstimationConvergenceChecker) :
    ∀ (n : ℕ) (s : EstimationLoopState),
      ((estimationLoopAux env pod checker n s).numberOfIterations : ℤ) ≤
        max checker.maximumNumberOfIterations ((s.numberOfIterations : ℤ) + 1) := by
  intro n
  induction n with
  | zero =>
    intro s
    simp only [estimationLoopAux]
    have := le_max_right checker.maximumNumberOfIterations ((s.numberOfIterations : ℤ) + 1)
    omega
  | succ m ih =>
    intro s
    simp only [estimationLoopAux]
    split
    · rename_i hconv
      rw [estimationIteration_numberOfIterations]
      have := le_max_right checker.maximumNumberOfIterations ((s.numberOfIterations : ℤ) + 1)
      push_cast
      omega
    · rename_i hconv
      have hfalse : isEstimationConverged checker
          ((estimationIteration env pod s).numberOfIterations : ℤ)
          (estimationIteration env pod s).rmsResidualHistory = false := by
        simpa using hconv
      have hlt := isEstimationConverged_false_lt_max checker _ _ hfalse
      rw [estimationIteration_numberOfIterations] at hlt
      have hih := ih (estimationIteration env pod s)
      rw [estimationIteration_numberOfIterations] at hih
      have hmax : max checker.maximumNumberOfIterations
          (((s.numberOfIterations + 1 : ℕ) : ℤ) + 1) = checker.maximumNumberOfIterations := by
        apply max_eq_left
        push_cast at hlt ⊢
        omega
      rw [hmax] at hih
      have := le_max_left checker.maximumNumberOfIterations ((s.numberOfIterations : ℤ) + 1)
      omega

/-- The fueled loop driver equals the unbounded do-while: it runs one
iteration, then stops or continues on the verdict of the convergence
checker. -/
theorem estimationLoop_eq (env : ExternalNumerics) (pod : PodInputModel)
    (checker : EstimationConvergenceChecker) (s : EstimationLoopState) :
    estimationLoop env pod checker s =
      (if isEstimationConverged checker
          ((estimationIteration env pod s).numberOfIterations : ℤ)
          (estimationIteration env pod s).rmsResidualHistory
       then estimationIteration env pod s
       else estimationLoop env pod checker (estimationIteration env pod s)) := by
  conv_lhs => rw [estimationLoop, estimationLoopFuel]
  simp only [estimationLoopAux]
  split
  · rfl
  · rename_i hconv
    have hfalse : isEstimationConverged checker
        ((estimationIteration env pod s).numberOfIterations : ℤ)
        (estimationIteration env pod s).rmsResidualHistory = false := by
      simpa using hconv
    have hlt := isEstimationConverged_false_lt_max checker _ _ hfalse
    rw [estimationIteration_numberOfIterations] at hlt
    have hfuel : (checker.maximumNumberOfIterations - ((s.numberOfIterations : ℤ))).toNat =
        (checker.maximumNumberOfIterations -
          (((estimationIteration env pod s).numberOfIterations : ℤ))).toNat + 1 := by
      rw [estimationIteration_numberOfIterations]
      push_cast at hlt ⊢
      omega
    rw [hfuel]
    rfl

/-! ## Claim C5: termination and iteration bounds of the estimation loop

The claim has three parts: the loop terminates, it executes at least one
full iteration even when `maximumNumberOfIterations = 0`, and the number
of completed iterations never exceeds `maximumNumberOfIterations`.  The
first two parts hold, but the last contradicts the second: the loop has
do-while shape, so with `maximumNumberOfIterations = 0` exactly one
iteration completes, and `1 > 0`.  The bound that does hold, and changes
the claim no more than the counterexample forces, is
`numberOfIterations ≤ max maximumNumberOfIterations 1`. -/

/-- A trivial environment for the C5 counterexample run. -/
def envZeroMax : ExternalNumerics :=
  { computeResidualsAndPartials := fun _ => ([], [])
    leastSquares := fun _ _ _ _ => ([], [])
    rms := fun _ => 0 }

/-- Measurement input for the C5 counterexample run. -/
def podZeroMax : PodInputModel :=
  { observationsAndTimes := []
    weightsMatrixDiagonals := []
    inverseAprioriCovariance := []
    initialParameterDeviationEstimate := [0]
    reintegrateEquationsOnFirstIteration := false
    reintegrateVariationalEquations := false
    saveResidualsAndParametersFromEachIteration := false
    saveInformationMatrix := false }

/-- A convergence checker with `maximumNumberOfIterations = 0`. -/
def checkerZeroMax : EstimationConvergenceChecker :=
  { maximumNumberOfIterations := 0
    minimumResidualChange := 0
    minimumResidual := 0
    numberOfIterationsWithoutImprovement := 2 }

/-- C5 (counterexample): with `maximumNumberOfIterations = 0` the do-while
loop still completes one iteration, so the claimed bound
`numberOfIterations ≤ maximumNumberOfIterations` fails. -/
theorem iteration_count_exceeds_zero_max_iterations :
    (estimateParametersFinalState envZeroMax podZeroMax checkerZeroMax [0]).numberOfIterations
        = 1 ∧
    checkerZeroMax.maximumNumberOfIterations = 0 ∧
    ¬ (((estimateParametersFinalState envZeroMax podZeroMax checkerZeroMax
          [0]).numberOfIterations : ℤ) ≤ checkerZeroMax.maximumNumberOfIterations) := by
  have h1 : (estimateParametersFinalState envZeroMax podZeroMax checkerZeroMax
      [0]).numberOfIterations = 1 := by
    simp only [estimateParametersFinalState, estimationLoop, estimationLoopFuel,
      initialEstimationState, estimationLoopAux, estimationIteration, iterationComputation,
      iterationDynamics, iterationResets, envZeroMax, podZeroMax, checkerZeroMax,
      isEstimationConverged, maxElementIndex, maxElementIndexAux, uint64SubWrap,
      getConcatenatedWeightsVector, getNumberOfObservationsPerObservable,
      normalizeObservationMatrix, normalizedAprioriCovariance, vecAdd, cwiseQuotient,
      doubleMax, List.getD]
    norm_num
  refine ⟨h1, rfl, ?_⟩
  rw [h1]
  simp [checkerZeroMax]

/-- C5 (amended): for every run the loop terminates (the final state below
is a total function of its inputs, computed with provably sufficient fuel;
`estimationLoop_eq` shows it equals the unbounded do-while), at least one
full iteration executes even when `maximumNumberOfIterations = 0`, and the
number of completed iterations never exceeds
`max maximumNumberOfIterations 1`. -/
theorem estimation_loop_terminates_within_bounds (env : ExternalNumerics)
    (pod : PodInputModel) (checker : EstimationConvergenceChecker)
    (nominalParameters : List ℚ) :
    1 ≤ (estimateParametersFinalState env pod checker nominalParameters).numberOfIterations ∧
    ((estimateParametersFinalState env pod checker
        nominalParameters).numberOfIterations : ℤ) ≤
      max checker.maximumNumberOfIterations 1 := by
  constructor
  · have h := estimationLoopAux_count_ge_one env pod checker
      (checker.maximumNumberOfIterations -
        ((initialEstimationState pod nominalParameters).numberOfIterations : ℤ)).toNat
      (initialEstimationState pod nominalParameters)
    simpa [estimateParametersFinalState, estimationLoop, estimationLoopFuel,
      initialEstimationState] using h
  · have h := estimationLoopAux_count_bound env pod checker
      (estimationLoopFuel checker (initialEstimationState pod nominalParameters))
      (initialEstimationState pod nominalParameters)
    simpa [estimateParametersFinalState, estimationLoop, initialEstimationState] using h

/-! ## Claim C3: the returned result is the lowest-RMS snapshot -/

theorem getD_concat_length (l : List α) (x : α) (d : α) :
    (l ++ [x]).getD l.length d = x := by
  rw [List.getD_append_right l [x] d l.length (le_refl _)]
  simp

/-- The selection property of the best-iterate bookkeeping: the best
residual is the RMS value recorded at some iteration `b`, it is less than
or equal to every recorded RMS value, and it is strictly below every RMS
value recorded before iteration `b` (so `b` is the first iteration
attaining the minimum: the snapshot is replaced only on strict
improvement). -/
def BestSnapshotSelection (s : EstimationLoopState) : Prop :=
  s.rmsResidualHistory ≠ [] ∧
  ∃ b, b < s.rmsResidualHistory.length ∧
    s.bestResidual = s.rmsResidualHistory.getD b 0 ∧
    (∀ j < s.rmsResidualHistory.length,
      s.bestResidual ≤ s.rmsResidualHistory.getD j 0) ∧
    (∀ j < b, s.bestResidual < s.rmsResidualHistory.getD j 0)

theorem estimationIteration_preserves_selection (env : ExternalNumerics)
    (pod : PodInputModel) (s : EstimationLoopState) (h : BestSnapshotSelection s) :
    BestSnapshotSelection (estimationIteration env pod s) := by
  obtain ⟨hne, b, hb, heq, hle, hstrict⟩ := h
  have hhist := estimationIteration_rmsResidualHistory env pod s
  have hbest := estimationIteration_bestResidual env pod s
  set r := (iterationComputation env pod (iterationDynamics pod s)).residualRms with hr
  by_cases hlt : r < s.bestResidual
  · refine ⟨by simp [hhist], s.rmsResidualHistory.length, ?_, ?_, ?_, ?_⟩
    · rw [hhist]; simp
    · rw [hbest, if_pos hlt, hhist, getD_concat_length]
    · intro j hj
      rw [hhist, List.length_append, List.length_singleton] at hj
      rw [hbest, if_pos hlt, hhist]
      rcases Nat.lt_succ_iff_lt_or_eq.mp hj with hj' | hj'
      · rw [List.getD_append _ _ _ _ hj']
        exact le_trans (le_of_lt hlt) (hle j hj')
      · subst hj'
        rw [getD_concat_length]
    · intro j hj
      rw [hbest, if_pos hlt, hhist, List.getD_append _ _ _ _ hj]
      exact lt_of_lt_of_le hlt (hle j hj)
  · refine ⟨by simp [hhist], b, ?_, ?_, ?_, ?_⟩
    · rw [hhist]; simp [List.length_append]; omega
    · rw [hbest, if_neg hlt, hhist, List.getD_append _ _ _ _ hb]
      exact heq
    · intro j hj
      rw [hhist, List.length_append, List.length_singleton] at hj
      rw [hbest, if_neg hlt, hhist]
      rcases Nat.lt_succ_iff_lt_or_eq.mp hj with hj' | hj'
      · rw [List.getD_append _ _ _ _ hj']
        exact hle j hj'
      · subst hj'
        rw [getD_concat_length]
        exact not_lt.mp hlt
    · intro j hj
      rw [hbest, if_neg hlt, hhist, List.getD_append _ _ _ _ (lt_trans hj hb)]
      exact hstrict j hj

theorem iterationComputation_residualRms (env : ExternalNumerics) (pod : PodInputModel)
    (dynamicsParameters : List ℚ) :
    (iterationComputation env pod dynamicsParameters).residualRms =
      env.rms (iterationComputation env pod dynamicsParameters).residuals := rfl

theorem estimationIteration_selection_base (env : ExternalNumerics)
    (pod : PodInputModel) (s : EstimationLoopState)
    (hrms : ∀ residuals : List ℚ, env.rms residuals < doubleMax)
    (hhist0 : s.rmsResidualHistory = []) (hbest0 : s.bestResidual = doubleMax) :
    BestSnapshotSelection (estimationIteration env pod s) := by
  have hhist := estimationIteration_rmsResidualHistory env pod s
  have hbest := estimationIteration_bestResidual env pod s
  set r := (iterationComputation env pod (iterationDynamics pod s)).residualRms with hr
  have hlt : r < s.bestResidual := by
    rw [hbest0, hr, iterationComputation_residualRms]
    exact hrms _
  rw [hhist0] at hhist
  refine ⟨by simp [hhist], 0, ?_, ?_, ?_, ?_⟩
  · rw [hhist]; simp
  · rw [hbest, if_pos hlt, hhist]; rfl
  · intro j hj
    rw [hhist] at hj
    simp only [List.nil_append, List.length_singleton] at hj
    interval_cases j
    rw [hbest, if_pos hlt, hhist]
    simp
  · intro j hj
    omega

theorem estimationLoop_selection (env : ExternalNumerics) (pod : PodInputModel)
    (checker : EstimationConvergenceChecker) (s : EstimationLoopState)
    (hrms : ∀ residuals : List ℚ, env.rms residuals < doubleMax)
    (hhist0 : s.rmsResidualHistory = []) (hbest0 : s.bestResidual = doubleMax) :
    BestSnapshotSelection (estimationLoop env pod checker s) := by
  unfold estimationLoop estimationLoopFuel
  simp only [estimationLoopAux]
  split
  · exact estimationIteration_selection_base env pod s hrms hhist0 hbest0
  · exact estimationLoopAux_preserves env pod checker BestSnapshotSelection
      (estimationIteration_preserves_selection env pod) _ _
      (estimationIteration_selection_base env pod s hrms hhist0 hbest0)

/-- C3: provided every RMS value supplied by the external RMS collaborator
stays below the largest double (as any finite double does), the result
returned by `estimateParameters` is the best-iterate snapshot: its RMS
value is the one recorded at some iteration `b`, is less than or equal to
the RMS of every recorded iteration of the run, and is strictly below
every RMS recorded before `b` (so the snapshot is replaced during the loop
only on a strictly lower RMS, and the returned snapshot is the best one,
not necessarily the last). -/
theorem estimateParameters_returns_lowest_rms_snapshot (env : ExternalNumerics)
    (pod : PodInputModel) (checker : EstimationConvergenceChecker)
    (nominalParameters : List ℚ)
    (hrms : ∀ residuals : List ℚ, env.rms residuals < doubleMax) :
    (estimateParameters env pod checker nominalParameters).residualStandardDeviation =
      (estimateParametersFinalState env pod checker nominalParameters).bestResidual ∧
    (estimateParameters env pod checker nominalParameters).parameterEstimate =
      (estimateParametersFinalState env pod checker nominalParameters).bestParameterEstimate ∧
    (estimateParameters env pod checker nominalParameters).residuals =
      (estimateParametersFinalState env pod checker nominalParameters).bestResiduals ∧
    (∀ s : EstimationLoopState,
      ¬ (iterationComputation env pod (iterationDynamics pod s)).residualRms <
          s.bestResidual →
        (estimationIteration env pod s).bestResidual = s.bestResidual ∧
        (estimationIteration env pod s).bestParameterEstimate = s.bestParameterEstimate ∧
        (estimationIteration env pod s).bestResiduals = s.bestResiduals) ∧
    BestSnapshotSelection (estimateParametersFinalState env pod checker nominalParameters) := by
  refine ⟨rfl, rfl, rfl, ?_, ?_⟩
  · intro s hs
    exact estimationIteration_best_of_not_lt env pod s hs
  · exact estimationLoop_selection env pod checker _ hrms rfl rfl

/-- Witness for C3 at a concrete run (trivial collaborators, one
parameter, `maximumNumberOfIterations = 0`). -/
theorem estimateParameters_returns_lowest_rms_snapshot_witness :
    (∀ residuals : List ℚ, envZeroMax.rms residuals < doubleMax) ∧
    ((estimateParameters envZeroMax podZeroMax checkerZeroMax [0]).residualStandardDeviation =
      (estimateParametersFinalState envZeroMax podZeroMax checkerZeroMax [0]).bestResidual ∧
    (estimateParameters envZeroMax podZeroMax checkerZeroMax [0]).parameterEstimate =
      (estimateParametersFinalState envZeroMax podZeroMax checkerZeroMax
        [0]).bestParameterEstimate ∧
    (estimateParameters envZeroMax podZeroMax checkerZeroMax [0]).residuals =
      (estimateParametersFinalState envZeroMax podZeroMax checkerZeroMax [0]).bestResiduals ∧
    (∀ s : EstimationLoopState,
      ¬ (iterationComputation envZeroMax podZeroMax
            (iterationDynamics podZeroMax s)).residualRms < s.bestResidual →
        (estimationIteration envZeroMax podZeroMax s).bestResidual = s.bestResidual ∧
        (estimationIteration envZeroMax podZeroMax s).bestParameterEstimate =
          s.bestParameterEstimate ∧
        (estimationIteration envZeroMax podZeroMax s).bestResiduals = s.bestResiduals) ∧
    BestSnapshotSelection
      (estimateParametersFinalState envZeroMax podZeroMax checkerZeroMax [0])) := by
  have hrms : ∀ residuals : List ℚ, envZeroMax.rms residuals < doubleMax := by
    intro residuals
    norm_num [envZeroMax, doubleMax]
  exact ⟨hrms,
    estimateParameters_returns_lowest_rms_snapshot envZeroMax podZeroMax checkerZeroMax
      [0] hrms⟩

/-! ## Claim C10: the best snapshot pairs the post-update parameter vector
with the pre-update residuals -/

theorem estimationIteration_residualHistory (env : ExternalNumerics)
    (pod : PodInputModel) (s : EstimationLoopState)
    (hsave : pod.saveResidualsAndParametersFromEachIteration = true) :
    (estimationIteration env pod s).residualHistory =
      s.residualHistory ++
        [(iterationComputation env pod (iterationDynamics pod s)).residuals] := by
  simp only [estimationIteration, hsave, if_true]
  split <;> rfl

theorem estimationIteration_parameterHistory (env : ExternalNumerics)
    (pod : PodInputModel) (s : EstimationLoopState)
    (hsave : pod.saveResidualsAndParametersFromEachIteration = true) :
    (estimationIteration env pod s).parameterHistory =
      (if s.numberOfIterations = 0 then s.parameterHistory ++ [s.newParameterEstimate]
       else s.parameterHistory) ++
        [vecAdd s.newParameterEstimate
          (iterationComputation env pod (iterationDynamics pod s)).parameterAddition] := by
  simp only [estimationIteration, hsave, if_true]
  split <;> rfl

theorem estimationIteration_newParameterEstimate (env : ExternalNumerics)
    (pod : PodInputModel) (s : EstimationLoopState) :
    (estimationIteration env pod s).newParameterEstimate =
      vecAdd s.newParameterEstimate
        (iterationComputation env pod (iterationDynamics pod s)).parameterAddition := by
  simp only [estimationIteration]
  split <;> rfl

theorem iterationDynamics_of_pos (pod : PodInputModel) (s : EstimationLoopState)
    (h : 0 < s.numberOfIterations) :
    iterationDynamics pod s = s.newParameterEstimate := by
  unfold iterationDynamics iterationResets
  simp [h]

theorem iterationDynamics_of_reintegrate (pod : PodInputModel) (s : EstimationLoopState)
    (h : pod.reintegrateEquationsOnFirstIteration = true) :
    iterationDynamics pod s = s.newParameterEstimate := by
  unfold iterationDynamics iterationResets
  simp [h]

/-- The bookkeeping correspondence maintained by the loop when residuals
and parameters are saved per iteration and the first iteration
re-propagates: the parameter history records the chain of estimates
`x 0, x 1, ...` with `x (i+1) = x i + correction( x i )`, iteration `i`
computed its residuals from the dynamics propagated at `x i`, and the best
snapshot holds, for some iteration `b`, the residuals of `x b` next to the
post-update estimate `x (b+1)`. -/
def SnapshotCorrespondence (env : ExternalNumerics) (pod : PodInputModel)
    (s : EstimationLoopState) : Prop :=
  1 ≤ s.numberOfIterations ∧
  s.rmsResidualHistory.length = s.numberOfIterations ∧
  s.residualHistory.length = s.numberOfIterations ∧
  s.parameterHistory.length = s.numberOfIterations + 1 ∧
  s.newParameterEstimate = s.parameterHistory.getD s.numberOfIterations [] ∧
  (∀ i < s.numberOfIterations,
    s.residualHistory.getD i [] =
      (iterationComputation env pod (s.parameterHistory.getD i [])).residuals ∧
    s.rmsResidualHistory.getD i 0 =
      (iterationComputation env pod (s.parameterHistory.getD i [])).residualRms ∧
    s.parameterHistory.getD (i + 1) [] =
      vecAdd (s.parameterHistory.getD i [])
        (iterationComputation env pod (s.parameterHistory.getD i [])).parameterAddition) ∧
  ∃ b, b < s.numberOfIterations ∧
    s.bestResidual = s.rmsResidualHistory.getD b 0 ∧
    s.bestResiduals = s.residualHistory.getD b [] ∧
    s.bestParameterEstimate = s.parameterHistory.getD (b + 1) []

theorem estimationIteration_preserves_correspondence (env : ExternalNumerics)
    (pod : PodInputModel)
    (hsave : pod.saveResidualsAndParametersFromEachIteration = true)
    (s : EstimationLoopState) (h : SnapshotCorrespondence env pod s) :
    SnapshotCorrespondence env pod (estimationIteration env pod s) := by
  obtain ⟨hcount, hrmslen, hreslen, hparlen, hnew, hcorr, b, hb, hbrms, hbres, hbpar⟩ := h
  have hdyn : iterationDynamics pod s = s.newParameterEstimate :=
    iterationDynamics_of_pos pod s hcount
  have hcomp : iterationComputation env pod (iterationDynamics pod s) =
      iterationComputation env pod (s.parameterHistory.getD s.numberOfIterations []) := by
    rw [hdyn, hnew]
  set n := s.numberOfIterations with hn
  set c := iterationComputation env pod (s.parameterHistory.getD n []) with hc
  have hcount' := estimationIteration_numberOfIterations env pod s
  have hrms' := estimationIteration_rmsResidualHistory env pod s
  have hres' := estimationIteration_residualHistory env pod s hsave
  have hpar' := estimationIteration_parameterHistory env pod s hsave
  have hnew' := estimationIteration_newParameterEstimate env pod s
  rw [hcomp] at hrms' hres' hpar' hnew'
  have hn0 : ¬ (n = 0) := by omega
  rw [if_neg hn0] at hpar'
  have hparlen' : (estimationIteration env pod s).parameterHistory.length = n + 2 := by
    rw [hpar', List.length_append, List.length_singleton, hparlen]
  have hgetpar_old : ∀ i, i < n + 1 →
      (estimationIteration env pod s).parameterHistory.getD i [] =
        s.parameterHistory.getD i [] := by
    intro i hi
    rw [hpar', List.getD_append _ _ _ _ (by omega)]
  have hgetpar_top : (estimationIteration env pod s).parameterHistory.getD (n + 1) [] =
      vecAdd s.newParameterEstimate c.parameterAddition := by
    rw [hpar', show n + 1 = s.parameterHistory.length from hparlen.symm, getD_concat_length]
  have hgetres_old : ∀ i, i < n →
      (estimationIteration env pod s).residualHistory.getD i [] =
        s.residualHistory.getD i [] := by
    intro i hi
    rw [hres', List.getD_append _ _ _ _ (by omega)]
  have hgetres_top : (estimationIteration env pod s).residualHistory.getD n [] =
      c.residuals := by
    rw [hres', show n = s.residualHistory.length from hreslen.symm, getD_concat_length]
  have hgetrms_old : ∀ i, i < n →
      (estimationIteration env pod s).rmsResidualHistory.getD i 0 =
        s.rmsResidualHistory.getD i 0 := by
    intro i hi
    rw [hrms', List.getD_append _ _ _ _ (by omega)]
  have hgetrms_top : (estimationIteration env pod s).rmsResidualHistory.getD n 0 =
      c.residualRms := by
    rw [hrms', show n = s.rmsResidualHistory.length from hrmslen.symm, getD_concat_length]
  refine ⟨by omega, ?_, ?_, ?_, ?_, ?_, ?_⟩
  · rw [hrms', List.length_append, List.length_singleton, hrmslen, hcount']
  · rw [hres', List.length_append, List.length_singleton, hreslen, hcount']
  · rw [hparlen', hcount']
  · rw [hcount', hnew', hgetpar_top]
  · intro i hi
    rw [hcount'] at hi
    by_cases hin : i < n
    · obtain ⟨h1, h2, h3⟩ := hcorr i hin
      rw [hgetres_old i hin, hgetrms_old i hin, hgetpar_old i (by omega),
        hgetpar_old (i + 1) (by omega)]
      exact ⟨h1, h2, h3⟩
    · have hieq : i = n := by omega
      subst hieq
      rw [hgetres_top, hgetrms_top, hgetpar_top, hgetpar_old n (by omega)]
      exact ⟨rfl, rfl, by rw [hnew]⟩
  · by_cases hlt : (iterationComputation env pod (iterationDynamics pod s)).residualRms <
        s.bestResidual
    · obtain ⟨h1, h2, h3⟩ := estimationIteration_best_of_lt env pod s hlt
      rw [hcomp] at h1 h2 h3
      refine ⟨n, by omega, ?_, ?_, ?_⟩
      · rw [h1, hgetrms_top]
      · rw [h3, hgetres_top]
      · rw [h2, hgetpar_top]
    · obtain ⟨h1, h2, h3⟩ := estimationIteration_best_of_not_lt env pod s hlt
      refine ⟨b, by omega, ?_, ?_, ?_⟩
      · rw [h1, hgetrms_old b hb]
        exact hbrms
      · rw [h3, hgetres_old b hb]
        exact hbres
      · rw [h2, hgetpar_old (b + 1) (by omega)]
        exact hbpar

theorem estimationIteration_correspondence_base (env : ExternalNumerics)
    (pod : PodInputModel) (nominalParameters : List ℚ)
    (hsave : pod.saveResidualsAndParametersFromEachIteration = true)
    (hreint : pod.reintegrateEquationsOnFirstIteration = true)
    (hrms : ∀ residuals : List ℚ, env.rms residuals < doubleMax) :
    SnapshotCorrespondence env pod
      (estimationIteration env pod (initialEstimationState pod nominalParameters)) := by
  set s0 := initialEstimationState pod nominalParameters with hs0
  have hdyn : iterationDynamics pod s0 = s0.newParameterEstimate :=
    iterationDynamics_of_reintegrate pod s0 hreint
  set c := iterationComputation env pod s0.newParameterEstimate with hc
  have hcount' := estimationIteration_numberOfIterations env pod s0
  have hrms' := estimationIteration_rmsResidualHistory env pod s0
  have hres' := estimationIteration_residualHistory env pod s0 hsave
  have hpar' := estimationIteration_parameterHistory env pod s0 hsave
  have hnew' := estimationIteration_newParameterEstimate env pod s0
  rw [hdyn, ← hc] at hrms' hres' hpar' hnew'
  have hc0 : s0.numberOfIterations = 0 := rfl
  have hh0 : s0.rmsResidualHistory = [] := rfl
  have hr0 : s0.residualHistory = [] := rfl
  have hp0 : s0.parameterHistory = [] := rfl
  have hb0 : s0.bestResidual = doubleMax := rfl
  rw [hh0] at hrms'
  rw [hr0] at hres'
  rw [hc0, if_pos rfl, hp0] at hpar'
  have hlt : (iterationComputation env pod (iterationDynamics pod s0)).residualRms <
      s0.bestResidual := by
    rw [hdyn, ← hc, hb0, iterationComputation_residualRms]
    exact hrms _
  obtain ⟨hbest1, hbest2, hbest3⟩ := estimationIteration_best_of_lt env pod s0 hlt
  rw [hdyn, ← hc] at hbest1 hbest2 hbest3
  refine ⟨by rw [hcount']; omega, by rw [hrms', hcount']; rfl, by rw [hres', hcount']; rfl,
    by rw [hpar', hcount']; rfl, ?_, ?_, 0, ?_, ?_, ?_, ?_⟩
  · rw [hnew', hcount', hpar']
    rfl
  · intro i hi
    rw [hcount'] at hi
    have hieq : i = 0 := by omega
    subst hieq
    rw [hres', hrms', hpar']
    exact ⟨rfl, rfl, rfl⟩
  · rw [hcount']
    omega
  · rw [hbest1, hrms']
    rfl
  · rw [hbest3, hres']
    rfl
  · rw [hbest2, hpar']
    rfl

theorem estimationLoop_correspondence (env : ExternalNumerics) (pod : PodInputModel)
    (checker : EstimationConvergenceChecker) (nominalParameters : List ℚ)
    (hsave : pod.saveResidualsAndParametersFromEachIteration = true)
    (hreint : pod.reintegrateEquationsOnFirstIteration = true)
    (hrms : ∀ residuals : List ℚ, env.rms residuals < doubleMax) :
    SnapshotCorrespondence env pod
      (estimationLoop env pod checker (initialEstimationState pod nominalParameters)) := by
  unfold estimationLoop estimationLoopFuel
  simp only [estimationLoopAux]
  split
  · exact estimationIteration_correspondence_base env pod nominalParameters hsave hreint hrms
  · exact estimationLoopAux_preserves env pod checker (SnapshotCorrespondence env pod)
      (estimationIteration_preserves_correspondence env pod hsave) _ _
      (estimationIteration_correspondence_base env pod nominalParameters hsave hreint hrms)

/-- C10: in a run that saves residuals and parameters per iteration and
re-propagates on the first iteration (so that the recorded histories
identify each iteration's inputs), the best snapshot of the final state
pairs, for some iteration `b`, the residuals computed from the dynamics of
the pre-update estimate `parameterHistory[ b ]` with the post-update
parameter vector `parameterHistory[ b ] + correction =
parameterHistory[ b + 1 ]`: the returned parameter vector and residuals
correspond to two successive parameter estimates, not to the same one. -/
theorem best_snapshot_pairs_updated_parameters_with_previous_residuals
    (env : ExternalNumerics) (pod : PodInputModel)
    (checker : EstimationConvergenceChecker) (nominalParameters : List ℚ)
    (hsave : pod.saveResidualsAndParametersFromEachIteration = true)
    (hreint : pod.reintegrateEquationsOnFirstIteration = true)
    (hrms : ∀ residuals : List ℚ, env.rms residuals < doubleMax) :
    ∃ b, b < (estimateParametersFinalState env pod checker
        nominalParameters).numberOfIterations ∧
      (estimateParametersFinalState env pod checker nominalParameters).bestResiduals =
        (iterationComputation env pod
          ((estimateParametersFinalState env pod checker
            nominalParameters).parameterHistory.getD b [])).residuals ∧
      (estimateParametersFinalState env pod checker nominalParameters).bestParameterEstimate =
        vecAdd
          ((estimateParametersFinalState env pod checker
            nominalParameters).parameterHistory.getD b [])
          (iterationComputation env pod
            ((estimateParametersFinalState env pod checker
              nominalParameters).parameterHistory.getD b [])).parameterAddition ∧
      (estimateParametersFinalState env pod checker nominalParameters).bestParameterEstimate =
        (estimateParametersFinalState env pod checker
          nominalParameters).parameterHistory.getD (b + 1) [] := by
  simp only [estimateParametersFinalState]
  obtain ⟨hcount, hrmslen, hreslen, hparlen, hnew, hcorr, b, hb, hbrms, hbres, hbpar⟩ :=
    estimationLoop_correspondence env pod checker nominalParameters hsave hreint hrms
  obtain ⟨h1, h2, h3⟩ := hcorr b hb
  refine ⟨b, hb, ?_, ?_, hbpar⟩
  · rw [hbres, h1]
  · rw [hbpar, h3]

/-- Measurement input with per-iteration saving and first-iteration
re-propagation enabled, for the C10 witness run. -/
def podSaveHistories : PodInputModel :=
  { observationsAndTimes := []
    weightsMatrixDiagonals := []
    inverseAprioriCovariance := []
    initialParameterDeviationEstimate := [1]
    reintegrateEquationsOnFirstIteration := true
    reintegrateVariationalEquations := true
    saveResidualsAndParametersFromEachIteration := true
    saveInformationMatrix := true }

/-- Witness for C10 at a concrete run. -/
theorem best_snapshot_pairing_witness :
    (podSaveHistories.saveResidualsAndParametersFromEachIteration = true ∧
      podSaveHistories.reintegrateEquationsOnFirstIteration = true ∧
      ∀ residuals : List ℚ, envZeroMax.rms residuals < doubleMax) ∧
    ∃ b, b < (estimateParametersFinalState envZeroMax podSaveHistories checkerZeroMax
        [0]).numberOfIterations ∧
      (estimateParametersFinalState envZeroMax podSaveHistories checkerZeroMax
          [0]).bestResiduals =
        (iterationComputation envZeroMax podSaveHistories
          ((estimateParametersFinalState envZeroMax podSaveHistories checkerZeroMax
            [0]).parameterHistory.getD b [])).residuals ∧
      (estimateParametersFinalState envZeroMax podSaveHistories checkerZeroMax
          [0]).bestParameterEstimate =
        vecAdd
          ((estimateParametersFinalState envZeroMax podSaveHistories checkerZeroMax
            [0]).parameterHistory.getD b [])
          (iterationComputation envZeroMax podSaveHistories
            ((estimateParametersFinalState envZeroMax podSaveHistories checkerZeroMax
              [0]).parameterHistory.getD b [])).parameterAddition ∧
      (estimateParametersFinalState envZeroMax podSaveHistories checkerZeroMax
          [0]).bestParameterEstimate =
        (estimateParametersFinalState envZeroMax podSaveHistories checkerZeroMax
          [0]).parameterHistory.getD (b + 1) [] := by
  have hrms : ∀ residuals : List ℚ, envZeroMax.rms residuals < doubleMax := by
    intro residuals
    norm_num [envZeroMax, doubleMax]
  exact ⟨⟨rfl, rfl, hrms⟩,
    best_snapshot_pairs_updated_parameters_with_previous_residuals envZeroMax
      podSaveHistories checkerZeroMax [0] rfl rfl hrms⟩

end OrbitDetermination
